import Mathlib

/-!
Verification of the budget-decision engine of the Financial AI Advisor
(`app.py`).

Conventions of the embedding:
* Python floats are modeled as exact rationals (`ℚ`); the decimal literals
  `0.15`, `0.8`, ... of the source become `15/100`, `8/10`, ....
* A Python exception is modeled as `Option.none` (so `predicted_expenses /
  income` with `income = 0`, which raises `ZeroDivisionError`, makes the
  recommender return `none`).
* The categorical codecs of `predict_expenses` are modeled as functions
  `String → Option ℤ`, where `none` stands for the codec raising on an
  unknown category.
* The `:,.0f` format specifier used in the savings-opportunity f-strings is
  modeled by `pyRound` (round half to even, as Python formatting does) and
  `fmtInt` (decimal digits with a thousands separator).
-/

/-! ## Python numeric formatting (`f"{x:,.0f}"`) -/

/-- Round half to even, the rounding applied by Python when formatting a
number with `.0f`. -/
def pyRound (q : ℚ) : ℤ :=
  if q - ⌊q⌋ < 1/2 then ⌊q⌋
  else if (1:ℚ)/2 < q - ⌊q⌋ then ⌊q⌋ + 1
  else if 2 ∣ ⌊q⌋ then ⌊q⌋ else ⌊q⌋ + 1

/-- Decimal digit characters of `n`, least-significant digit first.  The
first argument is fuel making the recursion structural; it is set to `n`
itself in `fmtNat` (enough since `n / 10 < n` for `n > 0`). -/
def toDigitsAux : ℕ → ℕ → List Char
  | _, 0 => []
  | 0, _ + 1 => []
  | fuel + 1, n + 1 => Nat.digitChar ((n + 1) % 10) :: toDigitsAux fuel ((n + 1) / 10)

/-- Insert a thousands separator into a least-significant-first digit list:
a comma after every three digits. -/
def commaLE : List Char → List Char
  | [] => []
  | [a] => [a]
  | [a, b] => [a, b]
  | [a, b, c] => [a, b, c]
  | a :: b :: c :: d :: rest => a :: b :: c :: ',' :: commaLE (d :: rest)

/-- Characters produced by Python's `format(n, ',d')` for a natural number. -/
def fmtNat (n : ℕ) : List Char :=
  if n = 0 then ['0'] else (commaLE (toDigitsAux n n)).reverse

/-- Characters produced by Python's `:,.0f` applied to an integer value. -/
def fmtInt : ℤ → List Char
  | Int.ofNat n => fmtNat n
  | Int.negSucc m => '-' :: fmtNat (m + 1)

/-- The text interpolated by the f-strings of `get_budget_recommendation`,
e.g. `f"Save ₹{income * 0.03:,.0f} with smart shopping"`. -/
def savingsText (amount : ℚ) (tip : String) : String :=
  "Save ₹" ++ String.mk (fmtInt (pyRound amount)) ++ tip

/-! ## Data model -/

/-- The fields of the `user_data` dict consumed by
`get_budget_recommendation` (lines 81-82): `income`, and `risk`, which the
source reads with `user_data.get('risk', 'Medium')`, hence an `Option`. -/
structure UserData where
  income : ℚ
  risk : Option String

/-- The dict returned by `get_budget_recommendation` (lines 117-124).
`savings_opportunities` keeps, for each category, the interpolated rational
amount next to the rendered display string. -/
structure BudgetPlan where
  predicted_expenses : ℚ
  savings_target : ℚ
  investment_recommended : ℚ
  expense_ratio : ℚ
  strategy : String
  savings_opportunities : List (String × ℚ × String)

/-! ## Budget recommender (`get_budget_recommendation`, lines 79-124) -/

/-- The risk-based strategy selection (lines 87-102), before the expense
ratio adjustment: `(savings_target, investment, strategy)`. -/
def base_allocation (income : ℚ) (risk : String) : ℚ × ℚ × String :=
  if risk = "Low" then
    (income * (15/100), income * (10/100),
      "Conservative - Focus on safety and long term stocks")
  else if risk = "Medium" then
    (income * (20/100), income * (15/100),
      "Balanced - Growth with mutual funds and sip")
  else if risk = "High" then
    (income * (25/100), income * (20/100),
      "Aggressive - Maximum growth(you can try options)")
  else
    (income * (20/100), income * (15/100),
      "Standard - Balanced approach (go with secure investments)")

/-- Model of `get_budget_recommendation(user_data, predicted_expenses)`.  Returns
`none` when `income = 0` (the division on line 84 raises
`ZeroDivisionError` there). -/
def get_budget_recommendation (user_data : UserData) (predicted_expenses : ℚ) :
    Option BudgetPlan :=
  let income := user_data.income
  let risk := user_data.risk.getD "Medium"
  if income = 0 then none
  else
    let expense_ratio := predicted_expenses / income
    let base := base_allocation income risk
    let adj :=
      if expense_ratio > 8/10 then
        (base.1 * (8/10), base.2.1 * (8/10), base.2.2 ++ " | High expense alert")
      else base
    some
      { predicted_expenses := predicted_expenses
        savings_target := adj.1
        investment_recommended := adj.2.1
        expense_ratio := expense_ratio
        strategy := adj.2.2
        savings_opportunities :=
          [("Groceries", income * (3/100),
              savingsText (income * (3/100)) " with smart shopping"),
           ("Entertainment", income * (2/100),
              savingsText (income * (2/100)) " with budget planning"),
           ("Eating Out", income * (4/100),
              savingsText (income * (4/100)) " by cooking at home"),
           ("Transport", income * (2/100),
              savingsText (income * (2/100)) " with carpooling")] }

/-! ## Feature encoder (`predict_expenses`, lines 59-77) -/

/-- The two codec lookups of `predict_expenses` and their shared
`try/except` (lines 61-66).  A codec raising on an unknown category is
`none`; the single `except` arm sets `occupation_encoded = 0` and
`city_encoded = 1`, so a failure of either lookup defaults both. -/
def encode_categories (occupation_encoder city_encoder : String → Option ℤ)
    (occupation city_tier : String) : ℤ × ℤ :=
  match occupation_encoder occupation, city_encoder city_tier with
  | some o, some c => (o, c)
  | _, _ => (0, 1)

/-! ## Charts -/

/-- The `values` list of `create_expense_chart` (line 129): each chart
segment is clamped to at least `0.1`. -/
def create_expense_chart_values (predicted_expenses savings investment : ℚ) :
    List ℚ :=
  [max predicted_expenses (1/10), max savings (1/10), max investment (1/10)]

/-- One decimal digit, or `none`: the acceptance test performed by
`float(...)` on each character of the comma-stripped amount string. -/
def digitVal? (c : Char) : Option ℕ :=
  if '0' ≤ c ∧ c ≤ '9' then some (c.toNat - 48) else none

/-- Accumulator pass over most-significant-first digit characters. -/
def parseNatAux : ℕ → List Char → Option ℕ
  | acc, [] => some acc
  | acc, c :: rest =>
    match digitVal? c with
    | some d => parseNatAux (acc * 10 + d) rest
    | none => none

/-- Parse a nonempty all-digit string. -/
def parseNat? (l : List Char) : Option ℕ :=
  if l.isEmpty then none else parseNatAux 0 l

/-- Model of `int(float(s))` from `create_savings_chart`, on the integer-literal
strings the pipeline produces; `none` models `float` raising. -/
def parseInt? (l : List Char) : Option ℤ :=
  if l.head? = some '-' then (parseNat? (l.drop 1)).map (fun n => -(n : ℤ))
  else (parseNat? l).map (fun n => (n : ℤ))

/-- Model of `text.split('₹')[1]`: the characters after the first `₹` and before the
next one (assumes at least one `₹`, which the caller checks). -/
def splitRupee1 (l : List Char) : List Char :=
  ((l.dropWhile (fun c => c != '₹')).drop 1).takeWhile (fun c => c != '₹')

/-- Model of `.split()[0]`: the first whitespace-delimited token (empty if none). -/
def firstToken (l : List Char) : List Char :=
  (l.dropWhile Char.isWhitespace).takeWhile (fun c => !c.isWhitespace)

/-- The amount `create_savings_chart` extracts from one display string
(lines 153-162): split on `₹`, first token, strip commas, parse; `2000` on
a missing `₹` or any parse failure. -/
def chart_amount (text : String) : ℤ :=
  if '₹' ∈ text.data then
    match parseInt? ((firstToken (splitRupee1 text.data)).filter (fun c => c != ',')) with
    | some v => v
    | none => 2000
  else 2000

/-- The `savings_values` list of `create_savings_chart` (lines 150-162). -/
def create_savings_chart_values (savings_opportunities : List (String × ℚ × String)) :
    List ℤ :=
  savings_opportunities.map (fun e => chart_amount e.2.2)

/-! ## Presentation-layer contracts from `main` -/

/-- The admissible values of the "Monthly Income (₹)" number input
(line 203): Streamlit rejects values outside `[min_value, max_value]`. -/
def income_input_ok (income : ℚ) : Bool :=
  10000 ≤ income ∧ income ≤ 500000

/-- The expense-ratio classification of `main` (lines 304-312):
`(status, advice)`. -/
def expense_ratio_status (r : ℚ) : String × String :=
  if r < 1/2 then ("✅ Excellent", "You\x27re spending within healthy limits")
  else if r < 7/10 then ("⚠️ Moderate", "Consider optimizing some expenses")
  else ("❌ High", "Immediate expense optimization needed")

/-! ## Substring search (for the distress marker) -/

/-- Substring test (`pat in s`) on character lists. -/
def containsSub (pat : List Char) : List Char → Bool
  | [] => pat.isPrefixOf []
  | c :: rest => pat.isPrefixOf (c :: rest) || containsSub pat rest

/-- Whether a strategy label contains the distress marker of line 108. -/
def hasMarker (s : String) : Bool :=
  containsSub " | High expense alert".data s.data

/-! ## Concrete codecs used as test data -/

/-- A codec that has learned exactly one category, "Employee", with code 2. -/
def occCodecEx : String → Option ℤ :=
  fun s => if s = "Employee" then some 2 else none

/-- A codec that raises on every category. -/
def cityCodecFail : String → Option ℤ :=
  fun _ => none

/-! ## Helper lemmas -/

/-- Unfolding of `get_budget_recommendation`: the field values of any
returned plan. -/
theorem budget_spec (u : UserData) (pe : ℚ) (plan : BudgetPlan)
    (h : get_budget_recommendation u pe = some plan) :
    u.income ≠ 0 ∧
    plan.predicted_expenses = pe ∧
    plan.expense_ratio = pe / u.income ∧
    plan.savings_target =
      (if pe / u.income > 8/10 then (base_allocation u.income (u.risk.getD "Medium")).1 * (8/10)
       else (base_allocation u.income (u.risk.getD "Medium")).1) ∧
    plan.investment_recommended =
      (if pe / u.income > 8/10 then (base_allocation u.income (u.risk.getD "Medium")).2.1 * (8/10)
       else (base_allocation u.income (u.risk.getD "Medium")).2.1) ∧
    plan.strategy =
      (if pe / u.income > 8/10 then (base_allocation u.income (u.risk.getD "Medium")).2.2 ++ " | High expense alert"
       else (base_allocation u.income (u.risk.getD "Medium")).2.2) ∧
    plan.savings_opportunities =
      [("Groceries", u.income * (3/100), savingsText (u.income * (3/100)) " with smart shopping"),
       ("Entertainment", u.income * (2/100), savingsText (u.income * (2/100)) " with budget planning"),
       ("Eating Out", u.income * (4/100), savingsText (u.income * (4/100)) " by cooking at home"),
       ("Transport", u.income * (2/100), savingsText (u.income * (2/100)) " with carpooling")] := by
  by_cases h0 : u.income = 0
  · simp [get_budget_recommendation, h0] at h
  · by_cases hc : pe / u.income > 8/10
    · simp only [get_budget_recommendation] at h
      rw [if_neg h0, if_pos hc] at h
      obtain rfl := (Option.some.injEq _ _).mp h |>.symm
      refine ⟨h0, rfl, rfl, ?_, ?_, ?_, rfl⟩ <;> rw [if_pos hc]
    · simp only [get_budget_recommendation] at h
      rw [if_neg h0, if_neg hc] at h
      obtain rfl := (Option.some.injEq _ _).mp h |>.symm
      refine ⟨h0, rfl, rfl, ?_, ?_, ?_, rfl⟩ <;> rw [if_neg hc]

/-- The recommender succeeds exactly on nonzero income. -/
theorem budget_some_of_income_ne_zero (u : UserData) (pe : ℚ) (h : u.income ≠ 0) :
    ∃ plan, get_budget_recommendation u pe = some plan := by
  have hne : get_budget_recommendation u pe ≠ none := by
    simp only [get_budget_recommendation]
    rw [if_neg h]
    simp
  exact Option.ne_none_iff_exists'.mp hne

/-! ## Claim theorems -/

/-- C1: for every income I > 0 and recognized risk appetite, the
pre-adjustment targets are savingsTarget = 0.15I, 0.20I, 0.25I and
investment = 0.10I, 0.15I, 0.20I for Low, Medium, High; in particular
income 75000 with risk Medium gives savingsTarget 15000 and investment
11250. -/
theorem risk_table_linear (I : ℚ) (hI : 0 < I) :
    (base_allocation I "Low").1 = 15/100 * I ∧
    (base_allocation I "Low").2.1 = 10/100 * I ∧
    (base_allocation I "Medium").1 = 20/100 * I ∧
    (base_allocation I "Medium").2.1 = 15/100 * I ∧
    (base_allocation I "High").1 = 25/100 * I ∧
    (base_allocation I "High").2.1 = 20/100 * I ∧
    (get_budget_recommendation ⟨75000, some "Medium"⟩ 45000).map
        (fun p => (p.savings_target, p.investment_recommended)) = some (15000, 11250) := by
  refine ⟨?_, ?_, ?_, ?_, ?_, ?_, ?_⟩
  · simp [base_allocation]; ring
  · simp [base_allocation]; ring
  · simp [base_allocation]; ring
  · simp [base_allocation]; ring
  · simp [base_allocation]; ring
  · simp [base_allocation]; ring
  · obtain ⟨plan, hp⟩ := budget_some_of_income_ne_zero ⟨75000, some "Medium"⟩ 45000 (by norm_num)
    obtain ⟨-, -, -, hs, hv, -, -⟩ := budget_spec _ _ _ hp
    have hr : ¬((45000 : ℚ) / 75000 > 8/10) := by norm_num
    rw [hp]
    simp only [Option.map_some', Option.some.injEq]
    rw [hs, hv, if_neg hr, if_neg hr]
    simp [base_allocation]; norm_num

/-- C1 witness: the theorem applied at I = 75000. -/
theorem risk_table_linear_witness :
    (base_allocation 75000 "Low").1 = 15/100 * 75000 ∧
    (get_budget_recommendation ⟨75000, some "Medium"⟩ 45000).map
        (fun p => (p.savings_target, p.investment_recommended)) = some (15000, 11250) :=
  ⟨(risk_table_linear 75000 (by norm_num)).1,
   (risk_table_linear 75000 (by norm_num)).2.2.2.2.2.2⟩

/-- C6: a risk value outside {Low, Medium, High} takes the default branch:
savingsTarget = 0.20I and investment = 0.15I (the Medium targets) with a
label starting "Standard"; income 20000 with an unknown risk value yields
savingsTarget 4000 and investment 3000. -/
theorem default_branch (I : ℚ) (risk : String)
    (h1 : risk ≠ "Low") (h2 : risk ≠ "Medium") (h3 : risk ≠ "High") :
    (base_allocation I risk).1 = 20/100 * I ∧
    (base_allocation I risk).2.1 = 15/100 * I ∧
    (base_allocation I risk).1 = (base_allocation I "Medium").1 ∧
    (base_allocation I risk).2.1 = (base_allocation I "Medium").2.1 ∧
    ("Standard".data.isPrefixOf (base_allocation I risk).2.2.data) = true ∧
    (get_budget_recommendation ⟨20000, some "Unknown-value"⟩ 0).map
        (fun p => (p.savings_target, p.investment_recommended)) = some (4000, 3000) := by
  refine ⟨?_, ?_, ?_, ?_, ?_, ?_⟩
  · simp [base_allocation, h1, h2, h3]; ring
  · simp [base_allocation, h1, h2, h3]; ring
  · simp [base_allocation, h1, h2, h3]
  · simp [base_allocation, h1, h2, h3]
  · simp [base_allocation, h1, h2, h3]
  · obtain ⟨plan, hp⟩ := budget_some_of_income_ne_zero ⟨20000, some "Unknown-value"⟩ 0 (by norm_num)
    obtain ⟨-, -, -, hs, hv, -, -⟩ := budget_spec _ _ _ hp
    have hr : ¬((0 : ℚ) / 20000 > 8/10) := by norm_num
    rw [hp]
    simp only [Option.map_some', Option.some.injEq]
    rw [hs, hv, if_neg hr, if_neg hr]
    simp [base_allocation]; norm_num

/-- C6 witness: the theorem applied at income 20000 and risk
"Unknown-value". -/
theorem default_branch_witness :
    (base_allocation 20000 "Unknown-value").1 = 20/100 * 20000 ∧
    (get_budget_recommendation ⟨20000, some "Unknown-value"⟩ 0).map
        (fun p => (p.savings_target, p.investment_recommended)) = some (4000, 3000) :=
  ⟨(default_branch 20000 "Unknown-value" (by decide) (by decide) (by decide)).1,
   (default_branch 20000 "Unknown-value" (by decide) (by decide) (by decide)).2.2.2.2.2⟩

/-- C7: the expense-ratio classification of the engine: ratio < 0.5 is the
healthy tier, 0.5 ≤ ratio < 0.7 the moderate tier, ratio ≥ 0.7 the high
tier, and for every ratio exactly one of the three tiers applies. -/
theorem ratio_classification (r : ℚ) :
    (r < 1/2 ↔ expense_ratio_status r =
      ("✅ Excellent", "You\x27re spending within healthy limits")) ∧
    (1/2 ≤ r ∧ r < 7/10 ↔ expense_ratio_status r =
      ("⚠️ Moderate", "Consider optimizing some expenses")) ∧
    (7/10 ≤ r ↔ expense_ratio_status r =
      ("❌ High", "Immediate expense optimization needed")) ∧
    (expense_ratio_status r = ("✅ Excellent", "You\x27re spending within healthy limits") ∨
     expense_ratio_status r = ("⚠️ Moderate", "Consider optimizing some expenses") ∨
     expense_ratio_status r = ("❌ High", "Immediate expense optimization needed")) ∧
    ("✅ Excellent" : String) ≠ "⚠️ Moderate" ∧
    ("⚠️ Moderate" : String) ≠ "❌ High" ∧
    ("✅ Excellent" : String) ≠ "❌ High" := by
  unfold expense_ratio_status
  split_ifs with hA hB
  · exact ⟨iff_of_true hA rfl,
      iff_of_false (fun h => absurd hA (not_lt.mpr h.1)) (fun h => by simp at h),
      iff_of_false (fun h => absurd hA (not_lt.mpr (le_trans (by norm_num) h)))
        (fun h => by simp at h),
      Or.inl rfl, by decide, by decide, by decide⟩
  · exact ⟨iff_of_false hA (fun h => by simp at h),
      iff_of_true ⟨not_lt.mp hA, hB⟩ rfl,
      iff_of_false (fun h => absurd hB (not_lt.mpr h)) (fun h => by simp at h),
      Or.inr (Or.inl rfl), by decide, by decide, by decide⟩
  · exact ⟨iff_of_false hA (fun h => by simp at h),
      iff_of_false (fun h => absurd h.2 hB) (fun h => by simp at h),
      iff_of_true (not_lt.mp hB) rfl,
      Or.inr (Or.inr rfl), by decide, by decide, by decide⟩

/-- C7 witness: the theorem applied at ratio 0.6, which lands in the
moderate tier. -/
theorem ratio_classification_witness :
    expense_ratio_status (6/10) = ("⚠️ Moderate", "Consider optimizing some expenses") :=
  (ratio_classification (6/10)).2.1.mp (by norm_num)

/-- C8: an absent riskAppetite is treated as Medium: the plan equals the
Medium-tier plan (savingsTarget = 0.20 income, investment = 0.15 income,
Balanced label), not the Standard default branch. -/
theorem absent_risk_defaults_medium (income pe : ℚ) :
    get_budget_recommendation ⟨income, none⟩ pe =
      get_budget_recommendation ⟨income, some "Medium"⟩ pe ∧
    base_allocation income ((none : Option String).getD "Medium") =
      (income * (20/100), income * (15/100), "Balanced - Growth with mutual funds and sip") ∧
    (base_allocation income ((none : Option String).getD "Medium")).2.2 ≠
      "Standard - Balanced approach (go with secure investments)" := by
  refine ⟨rfl, by simp [base_allocation], by simp [base_allocation]⟩

/-- C9: each of the three charted allocation values equals
max(original, 0.1), so no chart segment is smaller than 0.1. -/
theorem chart_clamp (predicted_expenses savings investment : ℚ) :
    create_expense_chart_values predicted_expenses savings investment =
      [max predicted_expenses (1/10), max savings (1/10), max investment (1/10)] ∧
    ∀ v ∈ create_expense_chart_values predicted_expenses savings investment, 1/10 ≤ v := by
  refine ⟨rfl, ?_⟩
  intro v hv
  simp only [create_expense_chart_values, List.mem_cons, List.not_mem_nil, or_false] at hv
  rcases hv with rfl | rfl | rfl
  · exact le_max_right _ _
  · exact le_max_right _ _
  · exact le_max_right _ _

/-- C9 witness: the theorem applied at (0, 5, -3); the zero and negative
inputs are clamped to 0.1. -/
theorem chart_clamp_witness :
    create_expense_chart_values 0 5 (-3) = [max 0 (1/10), max 5 (1/10), max (-3) (1/10)] ∧
    (1/10 : ℚ) ≤ max (0 : ℚ) (1/10) :=
  ⟨(chart_clamp 0 5 (-3)).1,
   (chart_clamp 0 5 (-3)).2 _ (by simp [create_expense_chart_values])⟩

/-- Every list is a prefix of itself, in `isPrefixOf` form. -/
theorem isPrefixOf_self (l : List Char) : l.isPrefixOf l = true := by
  induction l with
  | nil => rfl
  | cons c rest ih => simp [List.isPrefixOf, ih]

/-- Appending the marker makes `containsSub` find it. -/
theorem containsSub_append_self (pat l : List Char) :
    containsSub pat (l ++ pat) = true := by
  induction l with
  | nil =>
    simp only [List.nil_append]
    cases pat with
    | nil => rfl
    | cons c rest =>
      unfold containsSub
      rw [Bool.or_eq_true]
      exact Or.inl (isPrefixOf_self _)
  | cons c rest ih =>
    rw [List.cons_append, containsSub, Bool.or_eq_true]
    exact Or.inr ih

/-- A strategy label with the distress marker appended contains it. -/
theorem hasMarker_append (s : String) :
    hasMarker (s ++ " | High expense alert") = true := by
  unfold hasMarker
  rw [String.data_append]
  exact containsSub_append_self _ _

/-- C2: the returned savingsTarget and investment equal 0.8 times the
risk-tier table values and the label contains the distress marker exactly
when expenseRatio > 0.8; otherwise they equal the unadjusted table values
and no marker is present. -/
theorem distress_adjustment (u : UserData) (pe : ℚ) (plan : BudgetPlan)
    (h : get_budget_recommendation u pe = some plan) :
    plan.expense_ratio = pe / u.income ∧
    (plan.expense_ratio > 8/10 →
      plan.savings_target = (base_allocation u.income (u.risk.getD "Medium")).1 * (8/10) ∧
      plan.investment_recommended = (base_allocation u.income (u.risk.getD "Medium")).2.1 * (8/10) ∧
      hasMarker plan.strategy = true) ∧
    (plan.expense_ratio ≤ 8/10 →
      plan.savings_target = (base_allocation u.income (u.risk.getD "Medium")).1 ∧
      plan.investment_recommended = (base_allocation u.income (u.risk.getD "Medium")).2.1 ∧
      hasMarker plan.strategy = false) := by
  obtain ⟨-, -, hr, hs, hv, hst, -⟩ := budget_spec u pe plan h
  refine ⟨hr, ?_, ?_⟩
  · intro hgt
    rw [hr] at hgt
    rw [hs, hv, hst, if_pos hgt, if_pos hgt, if_pos hgt]
    exact ⟨rfl, rfl, hasMarker_append _⟩
  · intro hle
    rw [hr] at hle
    have hng : ¬ (pe / u.income > 8/10) := not_lt.mpr hle
    rw [hs, hv, hst, if_neg hng, if_neg hng, if_neg hng]
    refine ⟨rfl, rfl, ?_⟩
    unfold base_allocation
    split_ifs
    · show hasMarker "Conservative - Focus on safety and long term stocks" = false
      decide
    · show hasMarker "Balanced - Growth with mutual funds and sip" = false
      decide
    · show hasMarker "Aggressive - Maximum growth(you can try options)" = false
      decide
    · show hasMarker "Standard - Balanced approach (go with secure investments)" = false
      decide

/-- C2 witness: the theorem applied at income 50000, risk High,
predictedExpenses 45000 (ratio 0.9): base 12500/10000 adjusted to
10000/8000, marker present. -/
theorem distress_adjustment_witness :
    ∃ plan, get_budget_recommendation ⟨50000, some "High"⟩ 45000 = some plan ∧
      plan.savings_target = 10000 ∧ plan.investment_recommended = 8000 ∧
      hasMarker plan.strategy = true := by
  obtain ⟨plan, hp⟩ := budget_some_of_income_ne_zero ⟨50000, some "High"⟩ 45000 (by norm_num)
  obtain ⟨hr, hpos, -⟩ := distress_adjustment _ _ _ hp
  have hgt : plan.expense_ratio > 8/10 := by rw [hr]; norm_num
  obtain ⟨h1, h2, h3⟩ := hpos hgt
  refine ⟨plan, hp, ?_, ?_, h3⟩
  · rw [h1]; simp [base_allocation]; norm_num
  · rw [h2]; simp [base_allocation]; norm_num

/-- C3: a non-positive income is rejected by the income widget before the
recommender runs; every widget-admitted income is nonzero, the recommender
then succeeds, and the expense ratio of any returned plan is a true
quotient (ratio × income = predictedExpenses), so no divide-by-zero
artifact reaches a BudgetPlan. -/
theorem income_validation (income pe : ℚ) (u : UserData) (plan : BudgetPlan) :
    (income ≤ 0 → income_input_ok income = false) ∧
    (income_input_ok u.income = true →
      ∃ p, get_budget_recommendation u pe = some p) ∧
    (get_budget_recommendation u pe = some plan →
      u.income ≠ 0 ∧ plan.expense_ratio * u.income = pe) := by
  refine ⟨?_, ?_, ?_⟩
  · intro h
    simp only [income_input_ok, decide_eq_false_iff_not]
    rintro ⟨h1, -⟩
    linarith
  · intro h
    simp only [income_input_ok, decide_eq_true_eq] at h
    exact budget_some_of_income_ne_zero u pe (by intro h0; rw [h0] at h; linarith [h.1])
  · intro h
    obtain ⟨h0, -, hr, -⟩ := budget_spec u pe plan h
    exact ⟨h0, by rw [hr]; exact div_mul_cancel₀ pe h0⟩

/-- C3 witness: the theorem applied at income -5 (rejected by the widget)
and at the profile with income 75000 (admitted, plan returned, ratio is a
genuine quotient). -/
theorem income_validation_witness :
    income_input_ok (-5) = false ∧
    (∃ p, get_budget_recommendation ⟨75000, some "Medium"⟩ 45000 = some p ∧
      p.expense_ratio * 75000 = 45000) := by
  obtain ⟨p, hp⟩ :=
    (income_validation (-5) 45000 ⟨75000, some "Medium"⟩
      ⟨0, 0, 0, 0, "", []⟩).2.1 (by norm_num [income_input_ok])
  exact ⟨(income_validation (-5) 45000 ⟨75000, some "Medium"⟩ ⟨0, 0, 0, 0, "", []⟩).1
      (by norm_num),
    p, hp,
    ((income_validation (-5) 45000 ⟨75000, some "Medium"⟩ p).2.2 hp).2⟩

/-- C4 counterexample: the two codec lookups share one `except` arm, so a
known occupation ("Employee", learned code 2) loses its learned code when
the city-tier lookup raises: the encoder returns (0, 1), not (2, 1). -/
theorem encode_categories_counterexample :
    occCodecEx "Employee" = some 2 ∧
    encode_categories occCodecEx cityCodecFail "Employee" "Tier 9" = (0, 1) ∧
    (encode_categories occCodecEx cityCodecFail "Employee" "Tier 9").1 ≠ 2 := by
  refine ⟨rfl, rfl, by decide⟩

/-- C4 amended: unknown categories never raise and the defaults are
(occupation 0, city tier 1), but the fallback is joint, not independent:
the learned codes are used only when both lookups succeed, and if either
category is unknown both codes fall back to the defaults. -/
theorem encode_categories_amended (occupation_encoder city_encoder : String → Option ℤ)
    (occupation city_tier : String) :
    (∀ a b, occupation_encoder occupation = some a → city_encoder city_tier = some b →
      encode_categories occupation_encoder city_encoder occupation city_tier = (a, b)) ∧
    ((occupation_encoder occupation = none ∨ city_encoder city_tier = none) →
      encode_categories occupation_encoder city_encoder occupation city_tier = (0, 1)) := by
  unfold encode_categories
  constructor
  · intro a b ha hb
    rw [ha, hb]
  · rintro (ha | hb)
    · rw [ha]
    · rw [hb]
      rcases occupation_encoder occupation with - | o <;> rfl

/-- C4 amended witness: both lookups known gives the learned codes (2, 5);
a raising city codec gives the defaults (0, 1). -/
theorem encode_categories_amended_witness :
    encode_categories occCodecEx (fun _ => some 5) "Employee" "Tier 1" = (2, 5) ∧
    encode_categories occCodecEx cityCodecFail "Employee" "Tier 1" = (0, 1) :=
  ⟨(encode_categories_amended occCodecEx (fun _ => some 5) "Employee" "Tier 1").1 2 5 rfl rfl,
   (encode_categories_amended occCodecEx cityCodecFail "Employee" "Tier 1").2 (Or.inr rfl)⟩

/-- C5: every returned plan's savingsOpportunities holds exactly the four
fixed categories Groceries, Entertainment, Eating Out, Transport, in that
order, with amounts 0.03, 0.02, 0.04, 0.02 times income. -/
theorem savings_opportunities_fixed (u : UserData) (pe : ℚ) (plan : BudgetPlan)
    (h : get_budget_recommendation u pe = some plan) :
    plan.savings_opportunities.map Prod.fst =
      ["Groceries", "Entertainment", "Eating Out", "Transport"] ∧
    plan.savings_opportunities.map (fun e => e.2.1) =
      [u.income * (3/100), u.income * (2/100), u.income * (4/100), u.income * (2/100)] ∧
    plan.savings_opportunities.length = 4 := by
  obtain ⟨-, -, -, -, -, -, hso⟩ := budget_spec u pe plan h
  rw [hso]
  exact ⟨rfl, rfl, rfl⟩

/-- C5 witness: the theorem applied at income 75000: categories in order
with amounts 2250, 1500, 3000, 1500. -/
theorem savings_opportunities_fixed_witness :
    ∃ plan, get_budget_recommendation ⟨75000, some "Medium"⟩ 45000 = some plan ∧
      plan.savings_opportunities.map Prod.fst =
        ["Groceries", "Entertainment", "Eating Out", "Transport"] ∧
      plan.savings_opportunities.map (fun e => e.2.1) = [2250, 1500, 3000, 1500] := by
  obtain ⟨plan, hp⟩ := budget_some_of_income_ne_zero ⟨75000, some "Medium"⟩ 45000 (by norm_num)
  obtain ⟨h1, h2, -⟩ := savings_opportunities_fixed _ _ _ hp
  refine ⟨plan, hp, h1, ?_⟩
  rw [h2]; norm_num


theorem parseNatAux_append (l1 l2 : List Char) (acc : ℕ) :
    parseNatAux acc (l1 ++ l2) = (parseNatAux acc l1).bind (fun a => parseNatAux a l2) := by
  induction l1 generalizing acc with
  | nil => rfl
  | cons c rest ih =>
    rw [List.cons_append]
    have hL : parseNatAux acc (c :: (rest ++ l2)) =
        match digitVal? c with
        | some d => parseNatAux (acc * 10 + d) (rest ++ l2)
        | none => none := rfl
    have hR : parseNatAux acc (c :: rest) =
        match digitVal? c with
        | some d => parseNatAux (acc * 10 + d) rest
        | none => none := rfl
    rw [hL, hR]
    cases digitVal? c with
    | none => rfl
    | some d => exact ih (acc * 10 + d)

theorem digitChar_spec (d : ℕ) (hd : d < 10) :
    digitVal? (Nat.digitChar d) = some d ∧
    (Nat.digitChar d != ',') = true ∧
    (Nat.digitChar d != '₹') = true ∧
    (Nat.digitChar d != '-') = true ∧
    (Nat.digitChar d).isWhitespace = false := by
  interval_cases d <;> exact ⟨rfl, rfl, rfl, rfl, rfl⟩

theorem mem_toDigitsAux (fuel n : ℕ) (c : Char) (hc : c ∈ toDigitsAux fuel n) :
    ∃ d, d < 10 ∧ c = Nat.digitChar d := by
  induction fuel generalizing n with
  | zero => cases n <;> simp [toDigitsAux] at hc
  | succ fuel ih =>
    cases n with
    | zero => simp [toDigitsAux] at hc
    | succ m =>
      rw [toDigitsAux] at hc
      rcases List.mem_cons.mp hc with rfl | hmem
      · exact ⟨(m + 1) % 10, Nat.mod_lt _ (by norm_num), rfl⟩
      · exact ih _ hmem

theorem parse_toDigitsAux (fuel : ℕ) : ∀ (n acc : ℕ), n ≤ fuel →
    parseNatAux acc ((toDigitsAux fuel n).reverse) =
      some (acc * 10 ^ (toDigitsAux fuel n).length + n) := by
  induction fuel with
  | zero =>
    intro n acc hn
    obtain rfl : n = 0 := Nat.le_zero.mp hn
    simp [toDigitsAux, parseNatAux]
  | succ fuel ih =>
    intro n acc hn
    cases n with
    | zero => simp [toDigitsAux, parseNatAux]
    | succ m =>
      rw [toDigitsAux, List.reverse_cons, parseNatAux_append]
      have hq : (m + 1) / 10 ≤ fuel := by
        have := Nat.div_lt_self (Nat.succ_pos m) (by norm_num : 1 < 10)
        omega
      rw [ih _ acc hq]
      have hr : (m + 1) % 10 < 10 := Nat.mod_lt _ (by norm_num)
      show parseNatAux _ [Nat.digitChar ((m + 1) % 10)] = _
      have hone : ∀ a : ℕ, parseNatAux a [Nat.digitChar ((m + 1) % 10)] =
          some (a * 10 + (m + 1) % 10) := by
        intro a
        have h1 : parseNatAux a [Nat.digitChar ((m + 1) % 10)] =
            match digitVal? (Nat.digitChar ((m + 1) % 10)) with
            | some d => parseNatAux (a * 10 + d) []
            | none => none := rfl
        rw [h1, (digitChar_spec _ hr).1]
        rfl
      rw [hone]
      congr 1
      have hdm := Nat.div_add_mod (m + 1) 10
      rw [List.length_cons, pow_succ]
      set k := (toDigitsAux fuel ((m + 1) / 10)).length
      set q := (m + 1) / 10
      set r := (m + 1) % 10
      calc (acc * 10 ^ k + q) * 10 + r = acc * (10 ^ k * 10) + (10 * q + r) := by ring
        _ = acc * (10 ^ k * 10) + (m + 1) := by rw [hdm]

theorem filter_commaLE : ∀ (l : List Char), (∀ c ∈ l, (c != ',') = true) →
    (commaLE l).filter (fun c => c != ',') = l
  | [], _ => rfl
  | [a], h => by
    rw [commaLE]
    exact List.filter_eq_self.mpr h
  | [a, b], h => by
    rw [commaLE]
    exact List.filter_eq_self.mpr h
  | [a, b, c], h => by
    rw [commaLE]
    exact List.filter_eq_self.mpr h
  | a :: b :: c :: d :: rest, h => by
    rw [commaLE]
    have ha := h a (by simp)
    have hb := h b (by simp)
    have hc := h c (by simp)
    have htail : ∀ x ∈ d :: rest, (x != ',') = true := by
      intro x hx
      exact h x (by simp [hx])
    simp only [List.filter_cons, ha, hb, hc, bne_self_eq_false, if_true, if_false,
      Bool.false_eq_true, ite_true, ite_false, filter_commaLE (d :: rest) htail]

theorem mem_commaLE : ∀ (l : List Char) (c : Char), c ∈ commaLE l → c ∈ l ∨ c = ','
  | [], c, hc => by simp [commaLE] at hc
  | [a], c, hc => by rw [commaLE] at hc; exact Or.inl hc
  | [a, b], c, hc => by rw [commaLE] at hc; exact Or.inl hc
  | [a, b, x], c, hc => by rw [commaLE] at hc; exact Or.inl hc
  | a :: b :: x :: d :: rest, c, hc => by
    rw [commaLE] at hc
    rcases List.mem_cons.mp hc with rfl | hc
    · exact Or.inl (by simp)
    rcases List.mem_cons.mp hc with rfl | hc
    · exact Or.inl (by simp)
    rcases List.mem_cons.mp hc with rfl | hc
    · exact Or.inl (by simp)
    rcases List.mem_cons.mp hc with rfl | hc
    · exact Or.inr rfl
    · rcases mem_commaLE (d :: rest) c hc with h | h
      · exact Or.inl (List.mem_cons_of_mem _ (List.mem_cons_of_mem _ (List.mem_cons_of_mem _ h)))
      · exact Or.inr h

theorem mem_fmtNat (n : ℕ) (c : Char) (hc : c ∈ fmtNat n) :
    (∃ d, d < 10 ∧ c = Nat.digitChar d) ∨ c = ',' := by
  unfold fmtNat at hc
  split_ifs at hc with h0
  · rcases List.mem_cons.mp hc with rfl | h
    · exact Or.inl ⟨0, by norm_num, rfl⟩
    · simp at h
  · rcases mem_commaLE _ _ (List.mem_reverse.mp hc) with h | h
    · exact Or.inl (mem_toDigitsAux _ _ _ h)
    · exact Or.inr h

theorem toDigitsAux_ne_nil (n : ℕ) (h0 : n ≠ 0) : toDigitsAux n n ≠ [] := by
  cases n with
  | zero => exact absurd rfl h0
  | succ m => rw [toDigitsAux]; exact List.cons_ne_nil _ _

theorem commaLE_ne_nil : ∀ (l : List Char), l ≠ [] → commaLE l ≠ []
  | [], h => absurd rfl h
  | [a], _ => by rw [commaLE]; exact List.cons_ne_nil _ _
  | [a, b], _ => by rw [commaLE]; exact List.cons_ne_nil _ _
  | [a, b, c], _ => by rw [commaLE]; exact List.cons_ne_nil _ _
  | a :: b :: c :: d :: rest, _ => by rw [commaLE]; exact List.cons_ne_nil _ _

theorem fmtNat_ne_nil (n : ℕ) : fmtNat n ≠ [] := by
  unfold fmtNat
  split_ifs with h0
  · exact List.cons_ne_nil _ _
  · intro h
    exact commaLE_ne_nil _ (toDigitsAux_ne_nil n h0) (by simpa using congrArg List.reverse h)

theorem parseNat_fmtNat (n : ℕ) :
    parseNat? ((fmtNat n).filter (fun c => c != ',')) = some n := by
  unfold fmtNat
  split_ifs with h0
  · subst h0; rfl
  · have hdig : ∀ c ∈ toDigitsAux n n, (c != ',') = true := by
      intro c hc
      obtain ⟨d, hd, rfl⟩ := mem_toDigitsAux _ _ _ hc
      exact (digitChar_spec d hd).2.1
    rw [List.filter_reverse, filter_commaLE _ hdig]
    have hne : (toDigitsAux n n).reverse ≠ [] := by
      simpa using toDigitsAux_ne_nil n h0
    unfold parseNat?
    rw [if_neg (by simpa using hne)]
    rw [parse_toDigitsAux n n 0 le_rfl]
    simp

theorem filter_fmtNat (n : ℕ) :
    (fmtNat n).filter (fun c => c != ',') =
      (if n = 0 then ['0'] else (toDigitsAux n n).reverse) := by
  unfold fmtNat
  split_ifs with h0
  · rfl
  · have hdig : ∀ c ∈ toDigitsAux n n, (c != ',') = true := by
      intro c hc
      obtain ⟨d, hd, rfl⟩ := mem_toDigitsAux _ _ _ hc
      exact (digitChar_spec d hd).2.1
    rw [List.filter_reverse, filter_commaLE _ hdig]

theorem head_filter_fmtNat (n : ℕ) :
    ∃ c rest, (fmtNat n).filter (fun c => c != ',') = c :: rest ∧ (c != '-') = true := by
  rw [filter_fmtNat]
  split_ifs with h0
  · exact ⟨'0', [], rfl, rfl⟩
  · obtain ⟨c, rest, hcr⟩ :=
      List.exists_cons_of_ne_nil (show (toDigitsAux n n).reverse ≠ [] by
        simpa using toDigitsAux_ne_nil n h0)
    refine ⟨c, rest, hcr, ?_⟩
    have hmem : c ∈ (toDigitsAux n n).reverse := by rw [hcr]; simp
    obtain ⟨d, hd, rfl⟩ := mem_toDigitsAux _ _ _ (List.mem_reverse.mp hmem)
    exact (digitChar_spec d hd).2.2.2.1

theorem parseInt_fmtInt (z : ℤ) :
    parseInt? ((fmtInt z).filter (fun c => c != ',')) = some z := by
  cases z with
  | ofNat n =>
    show parseInt? ((fmtNat n).filter (fun c => c != ',')) = some (n : ℤ)
    obtain ⟨c, rest, hcr, hcm⟩ := head_filter_fmtNat n
    unfold parseInt?
    rw [hcr]
    rw [if_neg (by
      simp only [List.head?_cons, Option.some.injEq]
      intro h
      rw [h] at hcm
      simp at hcm)]
    rw [← hcr, parseNat_fmtNat]
    rfl
  | negSucc m =>
    show parseInt? (('-' :: fmtNat (m + 1)).filter (fun c => c != ',')) = some (Int.negSucc m)
    rw [List.filter_cons_of_pos (by decide)]
    unfold parseInt?
    rw [if_pos (by simp)]
    rw [List.drop_one, List.tail_cons, parseNat_fmtNat (m + 1)]
    simp [Int.negSucc_eq]

theorem mem_fmtInt (z : ℤ) (c : Char) (hc : c ∈ fmtInt z) :
    (∃ d, d < 10 ∧ c = Nat.digitChar d) ∨ c = ',' ∨ c = '-' := by
  cases z with
  | ofNat n =>
    rcases mem_fmtNat n c hc with h | h
    · exact Or.inl h
    · exact Or.inr (Or.inl h)
  | negSucc m =>
    rcases List.mem_cons.mp hc with rfl | h
    · exact Or.inr (Or.inr rfl)
    · rcases mem_fmtNat _ c h with h | h
      · exact Or.inl h
      · exact Or.inr (Or.inl h)

theorem fmtInt_props (z : ℤ) (c : Char) (hc : c ∈ fmtInt z) :
    (c != '₹') = true ∧ c.isWhitespace = false := by
  rcases mem_fmtInt z c hc with ⟨d, hd, rfl⟩ | rfl | rfl
  · exact ⟨(digitChar_spec d hd).2.2.1, (digitChar_spec d hd).2.2.2.2⟩
  · exact ⟨by decide, by decide⟩
  · exact ⟨by decide, by decide⟩

theorem fmtInt_ne_nil (z : ℤ) : fmtInt z ≠ [] := by
  cases z with
  | ofNat n => exact fmtNat_ne_nil n
  | negSucc m => exact List.cons_ne_nil _ _

theorem takeWhile_all_true (p : Char → Bool) : ∀ (l : List Char),
    (∀ c ∈ l, p c = true) → List.takeWhile p l = l
  | [], _ => rfl
  | x :: tl, h => by
    rw [List.takeWhile_cons, if_pos (h x (by simp))]
    rw [takeWhile_all_true p tl (fun y hy => h y (by simp [hy]))]

theorem takeWhile_append_stop (p : Char → Bool) : ∀ (l : List Char) (c : Char)
    (rest : List Char), (∀ x ∈ l, p x = true) → p c = false →
    List.takeWhile p (l ++ c :: rest) = l
  | [], c, rest, _, hc => by rw [List.nil_append, List.takeWhile_cons, if_neg (by rw [hc]; simp)]
  | x :: tl, c, rest, h, hc => by
    rw [List.cons_append, List.takeWhile_cons, if_pos (h x (by simp))]
    rw [takeWhile_append_stop p tl c rest (fun y hy => h y (by simp [hy])) hc]

theorem splitRupee1_savings (fm tip : List Char)
    (hf : ∀ c ∈ fm, (c != '₹') = true) (ht : ∀ c ∈ tip, (c != '₹') = true) :
    splitRupee1 ("Save ₹".data ++ (fm ++ tip)) = fm ++ tip := by
  unfold splitRupee1
  have h1 : "Save ₹".data ++ (fm ++ tip) = 'S' :: 'a' :: 'v' :: 'e' :: ' ' :: '₹' :: (fm ++ tip) := rfl
  rw [h1]
  rw [List.dropWhile_cons, if_pos (by decide), List.dropWhile_cons, if_pos (by decide),
      List.dropWhile_cons, if_pos (by decide), List.dropWhile_cons, if_pos (by decide),
      List.dropWhile_cons, if_pos (by decide), List.dropWhile_cons, if_neg (by decide)]
  rw [List.drop_one, List.tail_cons]
  exact takeWhile_all_true _ _ (fun c hc => by
    rcases List.mem_append.mp hc with h | h
    · exact hf c h
    · exact ht c h)

theorem firstToken_savings (fm rest : List Char) (hne : fm ≠ [])
    (hws : ∀ c ∈ fm, c.isWhitespace = false) :
    firstToken (fm ++ ' ' :: rest) = fm := by
  unfold firstToken
  obtain ⟨c0, tl, rfl⟩ := List.exists_cons_of_ne_nil hne
  rw [List.cons_append, List.dropWhile_cons, if_neg (by rw [hws c0 (by simp)]; simp)]
  rw [← List.cons_append]
  exact takeWhile_append_stop _ _ _ _ (fun x hx => by rw [hws x hx]; rfl) (by decide)

theorem chart_amount_savingsText (a : ℚ) (tip : String) (rest : List Char)
    (htip : tip.data = ' ' :: rest) (ht : ∀ c ∈ tip.data, (c != '₹') = true) :
    chart_amount (savingsText a tip) = pyRound a := by
  have hdata : (savingsText a tip).data = "Save ₹".data ++ (fmtInt (pyRound a) ++ tip.data) := by
    unfold savingsText
    rw [String.data_append, String.data_append, List.append_assoc]
  unfold chart_amount
  simp only [hdata]
  rw [if_pos (List.mem_append.mpr (Or.inl (by decide)))]
  rw [splitRupee1_savings _ _ (fun c hc => (fmtInt_props _ c hc).1) ht]
  rw [htip, firstToken_savings _ _ (fmtInt_ne_nil _) (fun c hc => (fmtInt_props _ c hc).2)]
  rw [parseInt_fmtInt]


/-- C10: the amount the savings-chart builder re-parses out of each
savingsOpportunities display string equals the per-category amount
round(income × multiplier) for the multipliers 0.03, 0.02, 0.04, 0.02;
when the currency symbol is absent or parsing fails it substitutes 2000
instead of raising. -/
theorem savings_roundtrip (u : UserData) (pe : ℚ) (plan : BudgetPlan)
    (h : get_budget_recommendation u pe = some plan) (t : String) (ht : '₹' ∉ t.data) :
    create_savings_chart_values plan.savings_opportunities =
      [pyRound (u.income * (3/100)), pyRound (u.income * (2/100)),
       pyRound (u.income * (4/100)), pyRound (u.income * (2/100))] ∧
    chart_amount t = 2000 ∧
    chart_amount "Save ₹abc now" = 2000 := by
  obtain ⟨-, -, -, -, -, -, hso⟩ := budget_spec u pe plan h
  refine ⟨?_, ?_, ?_⟩
  · rw [hso]
    unfold create_savings_chart_values
    simp only [List.map_cons, List.map_nil]
    rw [chart_amount_savingsText _ _ _ rfl (by decide),
        chart_amount_savingsText _ _ _ rfl (by decide),
        chart_amount_savingsText _ _ _ rfl (by decide),
        chart_amount_savingsText _ _ _ rfl (by decide)]
  · unfold chart_amount
    rw [if_neg ht]
  · rfl

/-- C10 witness: the theorem applied at income 75000: the chart recovers
2250, 1500, 3000, 1500 from the four display strings. -/
theorem savings_roundtrip_witness :
    ∃ plan, get_budget_recommendation ⟨75000, some "Medium"⟩ 45000 = some plan ∧
      create_savings_chart_values plan.savings_opportunities = [2250, 1500, 3000, 1500] := by
  obtain ⟨plan, hp⟩ := budget_some_of_income_ne_zero ⟨75000, some "Medium"⟩ 45000 (by norm_num)
  obtain ⟨h1, -, -⟩ := savings_roundtrip _ _ _ hp "x" (by decide)
  refine ⟨plan, hp, ?_⟩
  rw [h1]
  norm_num [pyRound]
